import Mathlib

/-!
Shallow embedding of the multi-view VAE core of the `multiAE` repository.

Source files embedded:
- `src/models/vae.py` — separate-latent multi-view VAE (`VAE`),
- `src/models/joint_vae.py` — joint-latent multi-view VAE (`VAE`, joined by
  Mean or Product-of-Experts),
- `multiae/models/dvcca.py` — DVCCA model.

Modelling conventions:
- Tensors of shape `[batch, dim]` are functions `Fin b → Fin d → ℝ`;
  python lists of tensors are Lean `List`s.
- Float scalars that feed exact comparisons in the code (`threshold`,
  `beta`) are rationals; tensor entries are reals, so that `exp` is the
  mathematical exponential.
- Python exceptions (`NotImplementedError`, `assert` failure) and the
  `print(...); exit()` path of `joint_vae.py` are values of an error type,
  and fallible methods return `Except`.
- Encoder/decoder modules and the helpers imported from `..utils`
  (`compute_kl`, `compute_kl_sparse`, distribution objects with
  `log_prob`/`kl_divergence`) are external collaborators that are not part
  of the embedded files; they enter as opaque function parameters,
  universally quantified in the theorems.
-/

/-- Python-level failures raised by methods of the embedded files:
`NotImplementedError` from `dropout`, and failure of the
`assert self.threshold <= 1.0` statement in `apply_threshold`. -/
inductive PyErr where
  | notImplementedError
  | assertionError
deriving DecidableEq

/-- Keys of the dictionaries returned by the `loss_function` methods:
`'total'`, `'kl'`, `'ll'` in `src/models/vae.py` and
`src/models/joint_vae.py`, and `'loss'`, `'kl'`, `'ll'` in
`multiae/models/dvcca.py`. -/
inductive Key where
  | total
  | kl
  | ll
  | loss
deriving DecidableEq

/-- Value of `self.sparse` after `__init__` of `src/models/vae.py`
(lines 51–58) and `src/models/joint_vae.py` (lines 64–71):
`True` iff `threshold != 0`. -/
def initSparse (threshold : ℚ) : Bool :=
  if threshold = 0 then false else true

/-- Shape of `self.log_alpha` after `__init__` of the two `src` models:
`FloatTensor(1, z_dim)` when `threshold != 0`, `None` otherwise. -/
def initLogAlphaShape (threshold : ℚ) (z_dim : ℕ) : Option (ℕ × ℕ) :=
  if threshold = 0 then none else some (1, z_dim)

/-- Per-dimension dropout rate computed in the sparse branch of
`VAE.dropout` (identical in `src/models/vae.py` lines 100–108 and
`src/models/joint_vae.py` lines 113–122):
`alpha = exp(log_alpha)`, returned value `alpha / (alpha + 1)`.
`log_alpha` has shape `[1, z_dim]`; we keep the single row. -/
noncomputable def dropoutRate {d : ℕ} (log_alpha : Fin d → ℝ) : Fin d → ℝ :=
  fun i => Real.exp (log_alpha i) / (Real.exp (log_alpha i) + 1)

/-- `VAE.dropout` of both `src` models: returns the dropout rate when
`self.sparse`, otherwise raises `NotImplementedError`. -/
noncomputable def dropout {d : ℕ} (sparse : Bool) (log_alpha : Fin d → ℝ) :
    Except PyErr (Fin d → ℝ) :=
  if sparse then .ok (dropoutRate log_alpha) else .error .notImplementedError

/-- The masking assignment `z[:, ~keep] = 0` with
`keep = dropout() < threshold`: entry `(r, i)` keeps its value when
`dropout_rate i < threshold` and is set to `0` otherwise. -/
noncomputable def maskKeep {b d : ℕ} (threshold : ℚ) (dr : Fin d → ℝ)
    (z : Fin b → Fin d → ℝ) : Fin b → Fin d → ℝ :=
  fun r i => if dr i < (threshold : ℝ) then z r i else 0

/-- `VAE.apply_threshold`, joint-representation branch
(`src/models/joint_vae.py` lines 124–139, where
`self.joint_representation = True`): first `assert self.threshold <= 1.0`,
then compute `keep = (self.dropout() < self.threshold)` and zero the
non-kept columns of the single latent tensor `z`. -/
noncomputable def apply_threshold_joint {b d : ℕ} (sparse : Bool)
    (threshold : ℚ) (log_alpha : Fin d → ℝ) (z : Fin b → Fin d → ℝ) :
    Except PyErr (Fin b → Fin d → ℝ) :=
  if threshold ≤ 1 then
    (dropout sparse log_alpha).map (fun dr => maskKeep threshold dr z)
  else .error .assertionError

/-- `VAE.apply_threshold`, separate-representation branch
(`src/models/vae.py` lines 110–125, where
`self.joint_representation = False`): the same per-dimension mask is
applied to every tensor of the list `z`. -/
noncomputable def apply_threshold_sep {b d : ℕ} (sparse : Bool)
    (threshold : ℚ) (log_alpha : Fin d → ℝ)
    (z : List (Fin b → Fin d → ℝ)) :
    Except PyErr (List (Fin b → Fin d → ℝ)) :=
  if threshold ≤ 1 then
    (dropout sparse log_alpha).map (fun dr => z.map (maskKeep threshold dr))
  else .error .assertionError

/-- Failure of model construction. `incorrectJoinMethod` models the
`print("Incorrect join method"); exit()` branch of
`src/models/joint_vae.py` `__init__` (lines 61–63), which aborts
construction. -/
inductive ConstructError where
  | incorrectJoinMethod
deriving DecidableEq

/-- Fusion object stored in `self.join_z`: `ProductOfExperts()` or
`MeanRepresentation()` from `..utils.calc_utils` (external
collaborators, represented by tags). -/
inductive JoinSel where
  | productOfExperts
  | meanRepresentation
deriving DecidableEq

/-- Selection of `self.join_z` in `src/models/joint_vae.py` `__init__`
(lines 57–63): `'PoE'` and `'Mean'` select the two fusion objects; any
other string prints an error and exits. -/
def selectJoin (join_type : String) : Except ConstructError JoinSel :=
  if join_type = "PoE" then .ok .productOfExperts
  else if join_type = "Mean" then .ok .meanRepresentation
  else .error .incorrectJoinMethod

/-- Configuration-derived state of the joint-latent model after
`__init__` of `src/models/joint_vae.py`, restricted to the fields the
claims read. -/
structure JointVAEState where
  join_z : JoinSel
  sparse : Bool
  log_alpha_shape : Option (ℕ × ℕ)
  n_views : ℕ
deriving DecidableEq

/-- `VAE.__init__` of `src/models/joint_vae.py`: validates `join_type`
(aborting construction on an unknown name), then derives `sparse`,
`log_alpha` and `n_views` exactly as lines 64–73 do. -/
def mkJointVAE (input_dims : List ℕ) (z_dim : ℕ) (threshold : ℚ)
    (join_type : String) : Except ConstructError JointVAEState := do
  let js ← selectJoin join_type
  pure { join_z := js
         sparse := initSparse threshold
         log_alpha_shape := initLogAlphaShape threshold z_dim
         n_views := input_dims.length }

/-- Optimizer construction of `src/models/vae.py` (lines 63–64): one
`Adam` per view `i`, over
`list(self.encoders[i].parameters()) + list(self.decoders[i].parameters())`.
Parameters of the external encoder/decoder modules are opaque, so each
view's parameter lists are inputs. -/
def vae_optimizers {P : Type} (n_views : ℕ)
    (encParams decParams : ℕ → List P) : List (List P) :=
  (List.range n_views).map (fun i => encParams i ++ decParams i)

/-- Optimizer construction of `src/models/joint_vae.py` (lines 76–77),
textually identical to the one in `src/models/vae.py`: one `Adam` per
view over that view's encoder and decoder parameters. -/
def joint_vae_optimizers {P : Type} (n_views : ℕ)
    (encParams decParams : ℕ → List P) : List (List P) :=
  (List.range n_views).map (fun i => encParams i ++ decParams i)

/-- `VAE.reparameterise` of `src/models/joint_vae.py` (lines 90–93):
`std = exp(0.5 * logvar)`, `eps = randn_like(mu)`, result
`mu + eps * std`. The random draw `eps` is an explicit input. -/
noncomputable def reparameterise_joint {b d : ℕ}
    (mu logvar eps : Fin b → Fin d → ℝ) : Fin b → Fin d → ℝ :=
  fun r i => mu r i + eps r i * Real.exp (0.5 * logvar r i)

/-- `VAE.reparameterise` of `src/models/vae.py` (lines 74–80): the same
computation applied per view over lists `mu`, `logvar`, with one random
draw `eps i` per view. The python loop runs over `range(len(mu))` and
indexes the lists, modelled by indexed families plus the length. -/
noncomputable def reparameterise_sep {b d : ℕ} (n : ℕ)
    (mu logvar eps : ℕ → Fin b → Fin d → ℝ) :
    List (Fin b → Fin d → ℝ) :=
  (List.range n).map (fun v => fun r i =>
    mu v r i + eps v r i * Real.exp (0.5 * logvar v r i))

/-- Normal-distribution object as consumed by `sample_from_normal`: a
location and a scale tensor. -/
structure NormalD (b d : ℕ) where
  loc : Fin b → Fin d → ℝ
  scale : Fin b → Fin d → ℝ

/-- `VAE.sample_from_normal` (identical in `src/models/vae.py` lines
151–152 and `src/models/joint_vae.py` lines 171–172): returns
`normal.loc`, the distribution mean. -/
def sample_from_normal {b d : ℕ} (normal : NormalD b d) :
    Fin b → Fin d → ℝ :=
  normal.loc

/-- `VAE.calc_kl` of `src/models/vae.py` (lines 127–140): sums, over the
views, `compute_kl_sparse(mu[i], logvar[i])` when `self.sparse` and
`compute_kl(mu[i], logvar[i])` otherwise, and returns `self.beta * kl`.
The helpers live in `..utils.kl_utils` (not part of the embedded files)
and are opaque parameters `compute_kl`, `compute_kl_sparse`; per-view
encoder outputs are the indexed families `mu`, `logvar` over an opaque
tensor type `T`. -/
def vae_calc_kl {T : Type} (beta : ℚ) (sparse : Bool) (n_views : ℕ)
    (compute_kl compute_kl_sparse : T → T → ℚ) (mu logvar : ℕ → T) : ℚ :=
  beta * ∑ i ∈ Finset.range n_views,
    (if sparse then compute_kl_sparse (mu i) (logvar i)
     else compute_kl (mu i) (logvar i))

/-- `VAE.calc_ll` of `src/models/vae.py` (lines 142–149): sums
`x_recon[i][j].log_prob(x[i]).sum(1, keepdims=True).mean(0)` over every
pair of views. The scalar each reconstruction-distribution object
contributes is the opaque parameter `log_prob_term`. -/
def vae_calc_ll {T R : Type} (n_views : ℕ) (log_prob_term : R → T → ℚ)
    (x : ℕ → T) (x_recon : ℕ → ℕ → R) : ℚ :=
  ∑ i ∈ Finset.range n_views, ∑ j ∈ Finset.range n_views,
    log_prob_term (x_recon i j) (x i)

/-- `VAE.loss_function` of `src/models/vae.py` (lines 154–166):
`kl = calc_kl(...)`, `recon = calc_ll(...)`, `total = kl - recon`,
returned dictionary `{'total': total, 'kl': kl, 'll': recon}`. -/
def vae_loss_function {T R : Type} (beta : ℚ) (sparse : Bool)
    (n_views : ℕ) (compute_kl compute_kl_sparse : T → T → ℚ)
    (log_prob_term : R → T → ℚ) (x mu logvar : ℕ → T)
    (x_recon : ℕ → ℕ → R) : List (Key × ℚ) :=
  let kl := vae_calc_kl beta sparse n_views compute_kl compute_kl_sparse mu logvar
  let recon := vae_calc_ll n_views log_prob_term x x_recon
  [(.total, kl - recon), (.kl, kl), (.ll, recon)]

/-- `VAE.calc_kl` of `src/models/joint_vae.py` (lines 141–153): a single
`compute_kl_sparse(mu, logvar)` or `compute_kl(mu, logvar)` term on the
fused posterior, returned as `self.beta * kl`. -/
def joint_calc_kl {T : Type} (beta : ℚ) (sparse : Bool)
    (compute_kl compute_kl_sparse : T → T → ℚ) (mu logvar : T) : ℚ :=
  beta * (if sparse then compute_kl_sparse mu logvar
          else compute_kl mu logvar)

/-- `VAE.calc_ll` of `src/models/joint_vae.py` (lines 155–160): sums
`mean(x_recon[i].log_prob(x[i]).sum(dim=1))` over the views. -/
def joint_calc_ll {T R : Type} (n_views : ℕ) (log_prob_term : R → T → ℚ)
    (x : ℕ → T) (x_recon : ℕ → R) : ℚ :=
  ∑ i ∈ Finset.range n_views, log_prob_term (x_recon i) (x i)

/-- `VAE.loss_function` of `src/models/joint_vae.py` (lines 174–186):
`kl = calc_kl(...)`, `recon = calc_ll(...)`, `total = kl - recon`,
returned dictionary `{'total': total, 'kl': kl, 'll': recon}`. -/
def joint_loss_function {T R : Type} (beta : ℚ) (sparse : Bool)
    (n_views : ℕ) (compute_kl compute_kl_sparse : T → T → ℚ)
    (log_prob_term : R → T → ℚ) (x : ℕ → T) (mu logvar : T)
    (x_recon : ℕ → R) : List (Key × ℚ) :=
  let kl := joint_calc_kl beta sparse compute_kl compute_kl_sparse mu logvar
  let recon := joint_calc_ll n_views log_prob_term x x_recon
  [(.total, kl - recon), (.kl, kl), (.ll, recon)]

/-- `DVCCA.calc_kl` of `multiae/models/dvcca.py` (lines 137–148): runs
over `n = n_views` posteriors when `self.private` and over `n = 1`
otherwise, adding `qz_x[i].sparse_kl_divergence().sum(1,keepdims=True).mean(0)`
when `self.sparse` and `qz_x[i].kl_divergence(self.prior).sum(1,keepdims=True).mean(0)`
otherwise; returns `self.beta * kl`. The distribution objects are opaque
(`qz_x : ℕ → Q`) with opaque per-posterior scalar terms. -/
def dvcca_calc_kl {Q : Type} (beta : ℚ) (sparse hasPrivate : Bool)
    (n_views : ℕ) (sparse_kl_term kl_term : Q → ℚ) (qz_x : ℕ → Q) : ℚ :=
  beta * ∑ i ∈ Finset.range (if hasPrivate then n_views else 1),
    (if sparse then sparse_kl_term (qz_x i) else kl_term (qz_x i))

/-- `DVCCA.calc_ll` of `multiae/models/dvcca.py` (lines 150–154): sums
`px_zs[i][0].log_likelihood(x[i]).sum(1,keepdims=True).mean(0)` over the
views. -/
def dvcca_calc_ll {T R : Type} (n_views : ℕ)
    (log_likelihood_term : R → T → ℚ) (x : ℕ → T) (px_zs : ℕ → R) : ℚ :=
  ∑ i ∈ Finset.range n_views, log_likelihood_term (px_zs i) (x i)

/-- `DVCCA.loss_function` of `multiae/models/dvcca.py` (lines 128–135):
`kl = calc_kl(qz_x)`, `ll = calc_ll(x, px_zs)`, `total = kl - ll`,
returned dictionary `{"loss": total, "kl": kl, "ll": ll}`. -/
def dvcca_loss_function {T R Q : Type} (beta : ℚ) (sparse hasPrivate : Bool)
    (n_views : ℕ) (sparse_kl_term kl_term : Q → ℚ)
    (log_likelihood_term : R → T → ℚ) (x : ℕ → T) (qz_x : ℕ → Q)
    (px_zs : ℕ → R) : List (Key × ℚ) :=
  let kl := dvcca_calc_kl beta sparse hasPrivate n_views sparse_kl_term kl_term qz_x
  let ll := dvcca_calc_ll n_views log_likelihood_term x px_zs
  [(.loss, kl - ll), (.kl, kl), (.ll, ll)]

/-- Value stored under key `k` in a loss dictionary (first occurrence;
every embedded `loss_function` lists each key once). Missing keys give
`0`. -/
def getv (losses : List (Key × ℚ)) (k : Key) : ℚ :=
  ((losses.find? (fun p => decide (p.1 = k))).map Prod.snd).getD 0

/-- Keys of a loss dictionary, in insertion order. -/
def lossKeys (losses : List (Key × ℚ)) : List Key :=
  losses.map Prod.fst

/-- Arguments `hydra.utils.instantiate(self.cfg.encoder, input_dim=...,
z_dim=..., sparse=..., log_alpha=...)` receives when `DVCCA._setencoders`
builds an encoder; the encoder class itself is an external collaborator,
so only the shape-determining arguments are recorded. -/
structure EncSpec where
  input_dim : ℕ
  z_dim : ℕ
  sparse : Bool
deriving DecidableEq

/-- Configuration fields of a `DVCCA` instance read by `_setencoders`
(set by `BaseModelVAE.__init__` from the model configuration before
`_setencoders` runs). -/
structure DVCCACfg where
  z_dim : ℕ
  sparse : Bool
  threshold : ℚ
  hasPrivate : Bool
  input_dim : List ℕ

/-- Attributes written by `DVCCA._setencoders`. -/
structure DVCCAEnc where
  sparse : Bool
  log_alpha_shape : Option (ℕ × ℕ)
  encoders : List EncSpec
  private_encoders : List EncSpec
  z_dim : ℕ
deriving DecidableEq

/-- `DVCCA._setencoders` of `multiae/models/dvcca.py` (lines 20–64):
when `self.sparse and self.threshold != 0.` create `log_alpha` of shape
`(1, self.z_dim)`, else clear `sparse` and `log_alpha`; build the shared
encoder on `input_dim[0]`; when `self.private`, build one private
encoder per view, then set `self.z_dim = self.z_dim + self.z_dim` and,
when sparse, re-create `log_alpha` with shape `(1, self.z_dim)` for the
doubled width. -/
def _setencoders (c : DVCCACfg) : DVCCAEnc :=
  let sparse1 : Bool := c.sparse && !(c.threshold = 0)
  let la1 : Option (ℕ × ℕ) := if sparse1 then some (1, c.z_dim) else none
  let encoders := [EncSpec.mk (c.input_dim.headD 0) c.z_dim sparse1]
  if c.hasPrivate then
    let privs := c.input_dim.map (fun dI => EncSpec.mk dI c.z_dim sparse1)
    let z2 := c.z_dim + c.z_dim
    let la2 : Option (ℕ × ℕ) := if sparse1 then some (1, z2) else la1
    { sparse := sparse1, log_alpha_shape := la2, encoders := encoders
      private_encoders := privs, z_dim := z2 }
  else
    { sparse := sparse1, log_alpha_shape := la1, encoders := encoders
      private_encoders := [], z_dim := c.z_dim }

/-- Heap of tensor objects, indexed by addresses, used to model python
object identity and in-place tensor mutation: `z[:, ~keep] = 0` writes
through the reference the caller passed. -/
def Heap (b d : ℕ) : Type := ℕ → Fin b → Fin d → ℝ

/-- Reference-level model of the joint-representation branch of
`VAE.apply_threshold` (`src/models/joint_vae.py` lines 124–139): the
argument is an address `z` into the heap; the masking assignment updates
the tensor stored at `z` in place, and `return z` yields the very same
address. -/
noncomputable def apply_threshold_joint_ref {b d : ℕ} (sparse : Bool)
    (threshold : ℚ) (log_alpha : Fin d → ℝ) (h : Heap b d) (z : ℕ) :
    Except PyErr (Heap b d × ℕ) :=
  if threshold ≤ 1 then
    (dropout sparse log_alpha).map (fun dr =>
      (Function.update h z (maskKeep threshold dr (h z)), z))
  else .error .assertionError

/-- Reference-level model of the separate-representation branch of
`VAE.apply_threshold` (`src/models/vae.py` lines 110–125): the argument
is a list of addresses; the loop `for _ in z: _[:, ~keep] = 0` mutates
each referenced tensor in place, and `return z` yields the same list of
addresses. -/
noncomputable def apply_threshold_sep_ref {b d : ℕ} (sparse : Bool)
    (threshold : ℚ) (log_alpha : Fin d → ℝ) (h : Heap b d) (zs : List ℕ) :
    Except PyErr (Heap b d × List ℕ) :=
  if threshold ≤ 1 then
    (dropout sparse log_alpha).map (fun dr =>
      (zs.foldl (fun hh a => Function.update hh a (maskKeep threshold dr (hh a))) h, zs))
  else .error .assertionError

theorem getv_cons_self (k : Key) (v : ℚ) (l : List (Key × ℚ)) :
    getv ((k, v) :: l) k = v := by
  simp [getv, List.find?]

theorem getv_cons_ne (k k' : Key) (v : ℚ) (l : List (Key × ℚ))
    (h : k' ≠ k) : getv ((k', v) :: l) k = getv l k := by
  simp [getv, List.find?, h]

theorem dropout_true {d : ℕ} (log_alpha : Fin d → ℝ) :
    dropout true log_alpha = .ok (dropoutRate log_alpha) := by
  simp [dropout]

theorem except_map_ok {α β : Type} (f : α → β) (a : α) :
    (Except.ok a : Except PyErr α).map f = .ok (f a) := rfl

/-- C3: for the disentangled (shared+private) DVCCA model, `_setencoders`
with private composition enabled doubles the effective latent
dimensionality (`z_dim` becomes `2 * z_dim`), and when sparsity is
enabled (`sparse` and nonzero `threshold`) the `log_alpha` gate parameter
has shape `[1, 2 * z_dim]`, so downstream shape-dependent logic reads the
post-concatenation dimensionality. -/
theorem C3_setencoders_private_doubles (c : DVCCACfg)
    (hp : c.hasPrivate = true) :
    (_setencoders c).z_dim = 2 * c.z_dim ∧
    (c.sparse = true → c.threshold ≠ 0 →
      (_setencoders c).log_alpha_shape = some (1, 2 * c.z_dim)) := by
  unfold _setencoders
  simp only [hp, if_true]
  constructor
  · simp [two_mul]
  · intro hs ht
    simp [hs, ht, two_mul]

/-- Witness for C3 at the spec's round-trip scenario:
`input_dims = [10, 15]`, `z_dim = 2`, sparse with `threshold = 1/2`;
the effective latent width is `4` and `log_alpha` has shape `[1, 4]`. -/
theorem C3_setencoders_private_doubles_witness :
    (_setencoders ⟨2, true, 1, true, [10, 15]⟩).z_dim = 2 * 2 ∧
    (_setencoders ⟨2, true, 1, true, [10, 15]⟩).log_alpha_shape
      = some (1, 2 * 2) := by
  have h := C3_setencoders_private_doubles ⟨2, true, 1, true, [10, 15]⟩ rfl
  exact ⟨h.1, h.2 rfl (by decide)⟩

/-- C4: constructing the joint-latent model with a fusion-strategy name
other than `'Mean'` or `'PoE'` fails at construction with the
configuration error of the `print("Incorrect join method"); exit()`
branch, and never silently selects a strategy. -/
theorem C4_invalid_join_type_fails (input_dims : List ℕ) (z_dim : ℕ)
    (threshold : ℚ) (join_type : String)
    (h1 : join_type ≠ "Mean") (h2 : join_type ≠ "PoE") :
    mkJointVAE input_dims z_dim threshold join_type
      = .error .incorrectJoinMethod := by
  simp [mkJointVAE, selectJoin, h1, h2, Bind.bind, Except.bind]

/-- Witness for C4: the strategy name `'Sum'` is rejected at
construction. -/
theorem C4_invalid_join_type_fails_witness :
    mkJointVAE [10, 15] 2 0 "Sum" = .error .incorrectJoinMethod :=
  C4_invalid_join_type_fails [10, 15] 2 0 "Sum" (by decide) (by decide)

/-- C6: on a model constructed with `threshold = 0` (sparsity disabled,
`sparse = False`), `dropout()` raises `NotImplementedError` and never
returns a value; on a sparse model (`threshold ≠ 0`) it returns
`exp(log_alpha) / (exp(log_alpha) + 1)`, a per-dimension value strictly
between 0 and 1. -/
theorem C6_dropout_spec {d : ℕ} (threshold : ℚ) (log_alpha : Fin d → ℝ) :
    (threshold = 0 →
      dropout (initSparse threshold) log_alpha
        = .error .notImplementedError) ∧
    (threshold ≠ 0 →
      dropout (initSparse threshold) log_alpha
        = .ok (dropoutRate log_alpha)) ∧
    (∀ i, 0 < dropoutRate log_alpha i ∧ dropoutRate log_alpha i < 1) := by
  refine ⟨fun h0 => by simp [dropout, initSparse, h0],
          fun hn => by simp [dropout, initSparse, hn], fun i => ?_⟩
  have hexp : 0 < Real.exp (log_alpha i) := Real.exp_pos _
  unfold dropoutRate
  constructor
  · exact div_pos hexp (by linarith)
  · rw [div_lt_one (by linarith)]
    linarith

/-- Witness for C6: with `threshold = 0` the call errors; with
`threshold = 1` it returns the dropout rate, which at `log_alpha = 0` is
strictly between 0 and 1. -/
theorem C6_dropout_spec_witness :
    (dropout (initSparse 0) (fun _ : Fin 1 => (0 : ℝ))
      = .error .notImplementedError) ∧
    (dropout (initSparse 1) (fun _ : Fin 1 => (0 : ℝ))
      = .ok (dropoutRate (fun _ => 0))) ∧
    (0 < dropoutRate (fun _ : Fin 1 => (0 : ℝ)) 0 ∧
      dropoutRate (fun _ : Fin 1 => (0 : ℝ)) 0 < 1) :=
  ⟨(C6_dropout_spec 0 _).1 rfl,
   ((C6_dropout_spec 1 _).2.1 (by decide)),
   (C6_dropout_spec 1 (fun _ : Fin 1 => (0 : ℝ))).2.2 0⟩

/-- Counterexample to C7: the loss dictionary returned by
`DVCCA.loss_function` has keys `loss`, `kl`, `ll` — not `total`, `kl`,
`ll` — shown at a concrete instantiation of the model (one view, no
private encoders, no sparsity, all opaque terms zero). -/
theorem C7_counterexample :
    lossKeys (dvcca_loss_function 1 false false 1
        (fun _ : Unit => (0 : ℚ)) (fun _ : Unit => (0 : ℚ))
        (fun _ : Unit => fun _ : Unit => (0 : ℚ))
        (fun _ => ()) (fun _ => ()) (fun _ => ()))
      ≠ [Key.total, Key.kl, Key.ll] := by
  decide

/-- C7 as amended: every `loss_function` returns a three-entry mapping
with stable keys and scalars computed fresh from its arguments; the two
`src` models use keys `total`, `kl`, `ll`, while `DVCCA` stores the
total under the key `loss` (keys `loss`, `kl`, `ll`). -/
theorem C7_amended_loss_keys {T R Q : Type} (beta : ℚ)
    (sparse hasPrivate : Bool) (n_views : ℕ)
    (compute_kl compute_kl_sparse : T → T → ℚ) (log_prob_term : R → T → ℚ)
    (sparse_kl_term kl_term : Q → ℚ) (log_likelihood_term : R → T → ℚ)
    (x mu logvar : ℕ → T) (x_recon2 : ℕ → ℕ → R) (muJ logvarJ : T)
    (x_recon : ℕ → R) (qz_x : ℕ → Q) (px_zs : ℕ → R) :
    lossKeys (vae_loss_function beta sparse n_views compute_kl
        compute_kl_sparse log_prob_term x mu logvar x_recon2)
      = [Key.total, Key.kl, Key.ll] ∧
    lossKeys (joint_loss_function beta sparse n_views compute_kl
        compute_kl_sparse log_prob_term x muJ logvarJ x_recon)
      = [Key.total, Key.kl, Key.ll] ∧
    lossKeys (dvcca_loss_function beta sparse hasPrivate n_views
        sparse_kl_term kl_term log_likelihood_term x qz_x px_zs)
      = [Key.loss, Key.kl, Key.ll] :=
  ⟨rfl, rfl, rfl⟩

/-- Counterexample to C1: the `kl` entry of the returned mapping already
contains the factor `beta` (`calc_kl` returns `self.beta * kl`), so
`total = beta * kl - ll` fails over the returned mapping as soon as
`beta ≠ 1`. Concrete instance: the joint model with `beta = 2`, one
view, non-sparse, opaque `compute_kl` ≡ 1 and log-likelihood term ≡ 0
gives `total = 2` but `beta * kl - ll = 4`. -/
theorem C1_counterexample :
    ¬ (getv (joint_loss_function 2 false 1 (fun _ _ : Unit => (1 : ℚ))
          (fun _ _ : Unit => (1 : ℚ)) (fun _ : Unit => fun _ : Unit => (0 : ℚ))
          (fun _ => ()) () () (fun _ => ())) Key.total
        = 2 * getv (joint_loss_function 2 false 1 (fun _ _ : Unit => (1 : ℚ))
          (fun _ _ : Unit => (1 : ℚ)) (fun _ : Unit => fun _ : Unit => (0 : ℚ))
          (fun _ => ()) () () (fun _ => ())) Key.kl
          - getv (joint_loss_function 2 false 1 (fun _ _ : Unit => (1 : ℚ))
          (fun _ _ : Unit => (1 : ℚ)) (fun _ : Unit => fun _ : Unit => (0 : ℚ))
          (fun _ => ()) () () (fun _ => ())) Key.ll) := by
  simp [joint_loss_function, joint_calc_kl, joint_calc_ll,
    getv_cons_self, getv_cons_ne]

/-- C1 as amended: for every model variant the returned `total` equals
the returned `kl` entry minus the returned `ll` entry, where the `kl`
entry itself equals `beta` times the beta-free KL sum (so `beta` scales
only the KL term) and the `ll` entry carries no `beta` factor. In
`DVCCA` the total sits under the key `loss`. -/
theorem C1_amended_loss_assembly {T R Q : Type} (beta : ℚ)
    (sparse hasPrivate : Bool) (n_views : ℕ)
    (compute_kl compute_kl_sparse : T → T → ℚ) (log_prob_term : R → T → ℚ)
    (sparse_kl_term kl_term : Q → ℚ) (log_likelihood_term : R → T → ℚ)
    (x mu logvar : ℕ → T) (x_recon2 : ℕ → ℕ → R) (muJ logvarJ : T)
    (x_recon : ℕ → R) (qz_x : ℕ → Q) (px_zs : ℕ → R) :
    (getv (vae_loss_function beta sparse n_views compute_kl
        compute_kl_sparse log_prob_term x mu logvar x_recon2) Key.total
      = getv (vae_loss_function beta sparse n_views compute_kl
          compute_kl_sparse log_prob_term x mu logvar x_recon2) Key.kl
        - getv (vae_loss_function beta sparse n_views compute_kl
            compute_kl_sparse log_prob_term x mu logvar x_recon2) Key.ll) ∧
    (getv (vae_loss_function beta sparse n_views compute_kl
        compute_kl_sparse log_prob_term x mu logvar x_recon2) Key.kl
      = beta * vae_calc_kl 1 sparse n_views compute_kl compute_kl_sparse
          mu logvar) ∧
    (getv (vae_loss_function beta sparse n_views compute_kl
        compute_kl_sparse log_prob_term x mu logvar x_recon2) Key.ll
      = vae_calc_ll n_views log_prob_term x x_recon2) ∧
    (getv (joint_loss_function beta sparse n_views compute_kl
        compute_kl_sparse log_prob_term x muJ logvarJ x_recon) Key.total
      = getv (joint_loss_function beta sparse n_views compute_kl
          compute_kl_sparse log_prob_term x muJ logvarJ x_recon) Key.kl
        - getv (joint_loss_function beta sparse n_views compute_kl
            compute_kl_sparse log_prob_term x muJ logvarJ x_recon) Key.ll) ∧
    (getv (joint_loss_function beta sparse n_views compute_kl
        compute_kl_sparse log_prob_term x muJ logvarJ x_recon) Key.kl
      = beta * joint_calc_kl 1 sparse compute_kl compute_kl_sparse
          muJ logvarJ) ∧
    (getv (joint_loss_function beta sparse n_views compute_kl
        compute_kl_sparse log_prob_term x muJ logvarJ x_recon) Key.ll
      = joint_calc_ll n_views log_prob_term x x_recon) ∧
    (getv (dvcca_loss_function beta sparse hasPrivate n_views
        sparse_kl_term kl_term log_likelihood_term x qz_x px_zs) Key.loss
      = getv (dvcca_loss_function beta sparse hasPrivate n_views
          sparse_kl_term kl_term log_likelihood_term x qz_x px_zs) Key.kl
        - getv (dvcca_loss_function beta sparse hasPrivate n_views
            sparse_kl_term kl_term log_likelihood_term x qz_x px_zs) Key.ll) ∧
    (getv (dvcca_loss_function beta sparse hasPrivate n_views
        sparse_kl_term kl_term log_likelihood_term x qz_x px_zs) Key.kl
      = beta * dvcca_calc_kl 1 sparse hasPrivate n_views sparse_kl_term
          kl_term qz_x) ∧
    (getv (dvcca_loss_function beta sparse hasPrivate n_views
        sparse_kl_term kl_term log_likelihood_term x qz_x px_zs) Key.ll
      = dvcca_calc_ll n_views log_likelihood_term x px_zs) := by
  refine ⟨?_, ?_, ?_, ?_, ?_, ?_, ?_, ?_, ?_⟩ <;>
    simp [vae_loss_function, joint_loss_function, dvcca_loss_function,
      vae_calc_kl, joint_calc_kl, dvcca_calc_kl,
      getv_cons_self, getv_cons_ne]

/-- C2: on a sparse model, for every threshold in `(0, 1]`,
`apply_threshold` succeeds and zeroes exactly those latent dimensions
whose dropout rate is `≥ threshold`, with one per-dimension mask applied
identically to every sample of the batch (joint branch) and to every
tensor of the list (separate branch); in particular with
`threshold = 1` no dimension with dropout rate `< 1` is zeroed. -/
theorem C2_apply_threshold_mask {b d : ℕ} (threshold : ℚ)
    (log_alpha : Fin d → ℝ) (z : Fin b → Fin d → ℝ)
    (zs : List (Fin b → Fin d → ℝ))
    (h0 : 0 < threshold) (h1 : threshold ≤ 1) :
    (apply_threshold_joint true threshold log_alpha z
      = .ok (fun r i =>
          if (threshold : ℝ) ≤ dropoutRate log_alpha i then 0 else z r i)) ∧
    (apply_threshold_sep true threshold log_alpha zs
      = .ok (zs.map (fun t => fun r i =>
          if (threshold : ℝ) ≤ dropoutRate log_alpha i then 0 else t r i))) ∧
    (threshold = 1 → ∀ r i, dropoutRate log_alpha i < 1 →
      maskKeep threshold (dropoutRate log_alpha) z r i = z r i) := by
  have hmask : ∀ t : Fin b → Fin d → ℝ,
      maskKeep threshold (dropoutRate log_alpha) t
        = fun r i =>
            if (threshold : ℝ) ≤ dropoutRate log_alpha i then 0
            else t r i := by
    intro t
    funext r i
    unfold maskKeep
    rcases lt_or_le (dropoutRate log_alpha i) ((threshold : ℝ)) with hc | hc
    · rw [if_pos hc, if_neg (not_le.mpr hc)]
    · rw [if_neg (not_lt.mpr hc), if_pos hc]
  refine ⟨?_, ?_, ?_⟩
  · rw [apply_threshold_joint, if_pos h1, dropout_true, except_map_ok,
      hmask z]
  · rw [apply_threshold_sep, if_pos h1, dropout_true, except_map_ok]
    congr 1
    exact List.map_congr_left (fun t _ => hmask t)
  · intro ht r i hlt
    have hne : ¬ ((threshold : ℝ) ≤ dropoutRate log_alpha i) := by
      rw [ht]
      push_cast
      exact not_le.mpr hlt
    simp only [hmask z]
    rw [if_neg hne]

/-- Witness for C2 at `threshold = 1`, `log_alpha = 0` (dropout rate
`1/2 < 1`), batch 1, one latent dimension holding the value 5: the call
succeeds and the dimension is not zeroed. -/
theorem C2_apply_threshold_mask_witness :
    apply_threshold_joint true 1 (fun _ : Fin 1 => (0 : ℝ))
      (fun _ _ : Fin 1 => (5 : ℝ)) = .ok (fun _ _ => (5 : ℝ)) := by
  have h := (C2_apply_threshold_mask 1 (fun _ : Fin 1 => (0 : ℝ))
    (fun _ _ : Fin 1 => (5 : ℝ)) [] (by decide) (by decide)).1
  rw [h]
  congr 1
  funext r i
  rw [if_neg]
  simp [dropoutRate, Real.exp_zero]
  norm_num

/-- Counterexample to C5: a model constructed with the negative
threshold `-1/2` (outside `(0, 1]`, hence sparse since `-1/2 ≠ 0`) does
not fail fast: `apply_threshold` passes the `assert threshold <= 1.0`
check, applies the mask, and returns with every latent dimension zeroed
(every dropout rate is positive, so none is `< -1/2`). -/
theorem C5_counterexample :
    apply_threshold_joint (initSparse (-1/2)) (-1/2)
      (fun _ : Fin 1 => (0 : ℝ)) (fun _ _ : Fin 1 => (5 : ℝ))
      = .ok (fun _ _ => (0 : ℝ)) := by
  have hs : initSparse (-1/2) = true := by norm_num [initSparse]
  rw [hs, apply_threshold_joint, if_pos (by norm_num), dropout_true,
    except_map_ok]
  congr 1
  funext r i
  unfold maskKeep
  rw [if_neg]
  have hpos : (0 : ℝ) < dropoutRate (fun _ : Fin 1 => (0 : ℝ)) i := by
    unfold dropoutRate
    positivity
  intro hlt
  have hneg' : ((-1/2 : ℚ) : ℝ) < 0 := by norm_num
  linarith

/-- C5 as amended: `threshold > 1.0` fails fast with the assertion
error before any masking, in both the joint and the separate branch; a
model constructed with `threshold = 0` is non-sparse, so its
`apply_threshold` call fails with `NotImplementedError` (from `dropout`)
before any masking, again in both branches; but a negative threshold is
not rejected — in both branches the call succeeds and zeroes every
latent dimension of the tensor, respectively of every tensor of the
list. -/
theorem C5_amended_threshold_precondition {b d : ℕ} (sparse : Bool)
    (threshold : ℚ) (log_alpha : Fin d → ℝ) (z : Fin b → Fin d → ℝ)
    (zs : List (Fin b → Fin d → ℝ)) :
    (1 < threshold →
      apply_threshold_joint sparse threshold log_alpha z
          = .error .assertionError ∧
      apply_threshold_sep sparse threshold log_alpha zs
          = .error .assertionError) ∧
    (apply_threshold_joint (initSparse 0) 0 log_alpha z
        = .error .notImplementedError) ∧
    (apply_threshold_sep (initSparse 0) 0 log_alpha zs
        = .error .notImplementedError) ∧
    (threshold < 0 →
      apply_threshold_joint (initSparse threshold) threshold log_alpha z
          = .ok (fun _ _ => 0) ∧
      apply_threshold_sep (initSparse threshold) threshold log_alpha zs
          = .ok (zs.map (fun _ => fun _ _ => 0))) := by
  have hs0 : initSparse 0 = false := by norm_num [initSparse]
  refine ⟨fun hgt => ?_, ?_, ?_, fun hneg => ?_⟩
  · constructor
    · rw [apply_threshold_joint, if_neg (not_le.mpr hgt)]
    · rw [apply_threshold_sep, if_neg (not_le.mpr hgt)]
  · rw [apply_threshold_joint, if_pos (by norm_num), hs0]
    rfl
  · rw [apply_threshold_sep, if_pos (by norm_num), hs0]
    rfl
  · have hs : initSparse threshold = true := by
      unfold initSparse
      rw [if_neg (by exact ne_of_lt hneg)]
    have hneg' : ((threshold : ℝ)) < 0 := by exact_mod_cast hneg
    have hzero : ∀ t : Fin b → Fin d → ℝ,
        maskKeep threshold (dropoutRate log_alpha) t = fun _ _ => 0 := by
      intro t
      funext r i
      unfold maskKeep
      rw [if_neg]
      have hpos : (0 : ℝ) < dropoutRate log_alpha i := by
        unfold dropoutRate
        positivity
      intro hlt
      linarith
    constructor
    · rw [hs, apply_threshold_joint, if_pos (le_trans hneg.le zero_le_one),
        dropout_true, except_map_ok, hzero z]
    · rw [hs, apply_threshold_sep, if_pos (le_trans hneg.le zero_le_one),
        dropout_true, except_map_ok]
      congr 1
      exact List.map_congr_left (fun t _ => hzero t)

/-- Witness for C5 as amended: `threshold = 2` fails with the assertion
error; the `threshold = 0` model fails with `NotImplementedError` in
both branches; `threshold = -1` is accepted and zeroes the latent in
both branches. -/
theorem C5_amended_threshold_precondition_witness :
    (apply_threshold_joint true 2 (fun _ : Fin 1 => (0 : ℝ))
        (fun _ _ : Fin 1 => (5 : ℝ)) = .error .assertionError) ∧
    (apply_threshold_joint (initSparse 0) 0 (fun _ : Fin 1 => (0 : ℝ))
        (fun _ _ : Fin 1 => (5 : ℝ)) = .error .notImplementedError) ∧
    (apply_threshold_sep (initSparse 0) 0 (fun _ : Fin 1 => (0 : ℝ))
        [fun _ _ : Fin 1 => (5 : ℝ)] = .error .notImplementedError) ∧
    (apply_threshold_joint (initSparse (-1)) (-1) (fun _ : Fin 1 => (0 : ℝ))
        (fun _ _ : Fin 1 => (5 : ℝ)) = .ok (fun _ _ => 0)) ∧
    (apply_threshold_sep (initSparse (-1)) (-1) (fun _ : Fin 1 => (0 : ℝ))
        [fun _ _ : Fin 1 => (5 : ℝ)]
      = .ok ([fun _ _ : Fin 1 => (5 : ℝ)].map (fun _ => fun _ _ => 0))) :=
  ⟨((C5_amended_threshold_precondition true 2 (fun _ : Fin 1 => (0 : ℝ))
      (fun _ _ : Fin 1 => (5 : ℝ)) []).1 (by decide)).1,
   (C5_amended_threshold_precondition true 0 (fun _ : Fin 1 => (0 : ℝ))
      (fun _ _ : Fin 1 => (5 : ℝ)) []).2.1,
   (C5_amended_threshold_precondition true 0 (fun _ : Fin 1 => (0 : ℝ))
      (fun _ _ : Fin 1 => (5 : ℝ))
      [fun _ _ : Fin 1 => (5 : ℝ)]).2.2.1,
   ((C5_amended_threshold_precondition true (-1) (fun _ : Fin 1 => (0 : ℝ))
      (fun _ _ : Fin 1 => (5 : ℝ)) []).2.2.2 (by decide)).1,
   ((C5_amended_threshold_precondition true (-1) (fun _ : Fin 1 => (0 : ℝ))
      (fun _ _ : Fin 1 => (5 : ℝ))
      [fun _ _ : Fin 1 => (5 : ℝ)]).2.2.2 (by decide)).2⟩

/-- Counterexample to C8: in the jointly-fused model the optimizers do
not span all views. With two views whose encoder parameters are tagged
`(view, true)` and decoder parameters `(view, false)`, no optimizer
built by `src/models/joint_vae.py` contains the encoder parameters of
both view 0 and view 1. -/
theorem C8_counterexample :
    ¬ ∃ ps ∈ joint_vae_optimizers 2 (fun i => [(i, true)])
        (fun i => [(i, false)]),
      ((0, true) ∈ ps ∧ (1, true) ∈ ps) := by
  decide

/-- C8 as amended: the jointly-fused model builds its optimizers by the
same rule as the fully decoupled per-view model — one optimizer per
view, covering exactly that view's encoder and decoder parameters — so
no optimizer spans the parameters of several views. -/
theorem C8_amended_per_view_optimizers {P : Type} (n_views : ℕ)
    (encParams decParams : ℕ → List P) :
    joint_vae_optimizers n_views encParams decParams
        = vae_optimizers n_views encParams decParams ∧
    (joint_vae_optimizers n_views encParams decParams).length = n_views ∧
    (∀ i, i < n_views →
      (joint_vae_optimizers n_views encParams decParams).getD i []
        = encParams i ++ decParams i) := by
  refine ⟨rfl, by simp [joint_vae_optimizers], fun i hi => ?_⟩
  simp [joint_vae_optimizers, List.getD, List.getElem?_map,
    List.getElem?_range hi]

/-- Witness for C8 as amended: with two views the first optimizer covers
exactly view 0's encoder and decoder parameters. -/
theorem C8_amended_per_view_optimizers_witness :
    (joint_vae_optimizers 2 (fun i => [(i, true)])
        (fun i => [(i, false)])).getD 0 []
      = [(0, true), (0, false)] :=
  (C8_amended_per_view_optimizers 2 (fun i => [(i, true)])
    (fun i => [(i, false)])).2.2 0 (by decide)

/-- C9: the reparameterised sample equals
`mu + eps * exp(0.5 * logvar)` entrywise, in the joint model (one fused
tensor) and in the separate model (one tensor per view), with `eps` the
standard-normal draw taken by the code (an explicit input here); and the
deterministic path `sample_from_normal` returns exactly the
distribution's mean `loc`. -/
theorem C9_reparameterise_and_mean {b d : ℕ} (n : ℕ)
    (mu logvar eps : ℕ → Fin b → Fin d → ℝ)
    (muJ logvarJ epsJ : Fin b → Fin d → ℝ) (normal : NormalD b d) :
    (∀ r i, reparameterise_joint muJ logvarJ epsJ r i
        = muJ r i + epsJ r i * Real.exp (0.5 * logvarJ r i)) ∧
    (∀ v, v < n → (reparameterise_sep n mu logvar eps).getD v 0
        = fun r i => mu v r i + eps v r i * Real.exp (0.5 * logvar v r i)) ∧
    sample_from_normal normal = normal.loc := by
  refine ⟨fun r i => rfl, fun v hv => ?_, rfl⟩
  simp [reparameterise_sep, List.getD, List.getElem?_map,
    List.getElem?_range hv]

/-- Witness for C9: with `mu = 1`, `logvar = 0`, `eps = 1` the
reparameterised sample is `1 + exp 0 = 2`, and `sample_from_normal`
returns the mean tensor. -/
theorem C9_reparameterise_and_mean_witness :
    reparameterise_joint (fun _ _ : Fin 1 => (1 : ℝ))
        (fun _ _ : Fin 1 => (0 : ℝ)) (fun _ _ : Fin 1 => (1 : ℝ)) 0 0
      = 2 ∧
    sample_from_normal (NormalD.mk (fun _ _ : Fin 1 => (3 : ℝ))
        (fun _ _ : Fin 1 => (1 : ℝ))) = fun _ _ => 3 := by
  have h := C9_reparameterise_and_mean 1
    (fun _ : ℕ => fun _ _ : Fin 1 => (1 : ℝ))
    (fun _ : ℕ => fun _ _ : Fin 1 => (0 : ℝ))
    (fun _ : ℕ => fun _ _ : Fin 1 => (1 : ℝ)) (fun _ _ : Fin 1 => (1 : ℝ))
    (fun _ _ : Fin 1 => (0 : ℝ)) (fun _ _ : Fin 1 => (1 : ℝ))
    (NormalD.mk (fun _ _ : Fin 1 => (3 : ℝ)) (fun _ _ : Fin 1 => (1 : ℝ)))
  refine ⟨?_, h.2.2⟩
  rw [h.1 0 0]
  norm_num [Real.exp_zero]

theorem foldl_update_frame {b d : ℕ}
    (g : Heap b d → ℕ → Fin b → Fin d → ℝ) :
    ∀ (zs : List ℕ) (h : Heap b d) (a : ℕ), a ∉ zs →
      zs.foldl (fun hh x => Function.update hh x (g hh x)) h a = h a := by
  intro zs
  induction zs with
  | nil => intro h a _; rfl
  | cons x xs ih =>
    intro h a ha
    have hax : a ≠ x := fun hc => ha (hc ▸ List.mem_cons_self x xs)
    have haxs : a ∉ xs := fun hc => ha (List.mem_cons_of_mem x hc)
    calc (x :: xs).foldl (fun hh y => Function.update hh y (g hh y)) h a
        = xs.foldl (fun hh y => Function.update hh y (g hh y))
            (Function.update h x (g h x)) a := rfl
      _ = Function.update h x (g h x) a := ih _ a haxs
      _ = h a := Function.update_noteq hax _ h

theorem maskKeep_idem {b d : ℕ} (threshold : ℚ) (dr : Fin d → ℝ)
    (t : Fin b → Fin d → ℝ) :
    maskKeep threshold dr (maskKeep threshold dr t)
      = maskKeep threshold dr t := by
  funext r i
  unfold maskKeep
  by_cases hc : dr i < (threshold : ℝ)
  · simp [hc]
  · simp [hc]

theorem foldl_update_mask_mem {b d : ℕ} (threshold : ℚ) (dr : Fin d → ℝ) :
    ∀ (zs : List ℕ) (h : Heap b d) (a : ℕ), a ∈ zs →
      zs.foldl (fun hh x => Function.update hh x
          (maskKeep threshold dr (hh x))) h a
        = maskKeep threshold dr (h a) := by
  intro zs
  induction zs with
  | nil => intro h a ha; exact absurd ha (List.not_mem_nil a)
  | cons x xs ih =>
    intro h a ha
    have hstep : (x :: xs).foldl (fun hh y => Function.update hh y
          (maskKeep threshold dr (hh y))) h a
        = xs.foldl (fun hh y => Function.update hh y
            (maskKeep threshold dr (hh y)))
          (Function.update h x (maskKeep threshold dr (h x))) a := rfl
    rw [hstep]
    by_cases hax : a ∈ xs
    · rw [ih _ a hax]
      by_cases he : a = x
      · subst he
        rw [Function.update_same, maskKeep_idem]
      · rw [Function.update_noteq he]
    · have he : a = x := by
        rcases List.mem_cons.mp ha with h' | h'
        · exact h'
        · exact absurd h' hax
      subst he
      rw [foldl_update_frame
        (fun hh y => maskKeep threshold dr (hh y)) xs _ a hax]
      rw [Function.update_same]

/-- C10: `apply_threshold` mutates its latent argument in place. In the
heap model, the successful call writes the masked tensor back through
the reference the caller passed (other heap cells are untouched) and
returns the very same reference — the same single address in the joint
branch, and the identical list of addresses in the separate branch,
with the masked values written at every address of that list — not a
fresh copy. -/
theorem C10_apply_threshold_inplace {b d : ℕ} (threshold : ℚ)
    (log_alpha : Fin d → ℝ) (h : Heap b d) (z : ℕ) (zs : List ℕ)
    (h1 : threshold ≤ 1) :
    (apply_threshold_joint_ref true threshold log_alpha h z
      = .ok (Function.update h z
          (maskKeep threshold (dropoutRate log_alpha) (h z)), z)) ∧
    (∀ h' z', apply_threshold_joint_ref true threshold log_alpha h z
        = .ok (h', z') →
      z' = z ∧
      h' z = maskKeep threshold (dropoutRate log_alpha) (h z) ∧
      ∀ a, a ≠ z → h' a = h a) ∧
    (∀ h' zs', apply_threshold_sep_ref true threshold log_alpha h zs
        = .ok (h', zs') →
      zs' = zs ∧
      (∀ a, a ∈ zs →
        h' a = maskKeep threshold (dropoutRate log_alpha) (h a)) ∧
      ∀ a, a ∉ zs → h' a = h a) := by
  have hj : apply_threshold_joint_ref true threshold log_alpha h z
      = .ok (Function.update h z
          (maskKeep threshold (dropoutRate log_alpha) (h z)), z) := by
    rw [apply_threshold_joint_ref, if_pos h1, dropout_true, except_map_ok]
  refine ⟨hj, fun h' z' heq => ?_, fun h' zs' heq => ?_⟩
  · rw [hj] at heq
    simp only [Except.ok.injEq, Prod.mk.injEq] at heq
    obtain ⟨hh, hz⟩ := heq
    subst hz
    refine ⟨rfl, ?_, fun a ha => ?_⟩
    · rw [← hh, Function.update_same]
    · rw [← hh, Function.update_noteq ha]
  · rw [apply_threshold_sep_ref, if_pos h1, dropout_true, except_map_ok]
      at heq
    simp only [Except.ok.injEq, Prod.mk.injEq] at heq
    obtain ⟨hh, hz⟩ := heq
    subst hz
    refine ⟨rfl, fun a ha => ?_, fun a ha => ?_⟩
    · rw [← hh]
      exact foldl_update_mask_mem threshold (dropoutRate log_alpha)
        zs h a ha
    · rw [← hh]
      exact foldl_update_frame
        (fun hh2 x => maskKeep threshold (dropoutRate log_alpha) (hh2 x))
        zs h a ha

/-- Witness for C10 at `threshold = 1`, one cell heap holding the
constant tensor 5 at address 0: the call returns address 0 unchanged and
the heap updated in place at that address. -/
theorem C10_apply_threshold_inplace_witness :
    apply_threshold_joint_ref true 1 (fun _ : Fin 1 => (0 : ℝ))
        (fun _ _ _ => (5 : ℝ) : Heap 1 1) 0
      = .ok (Function.update (fun _ _ _ => (5 : ℝ) : Heap 1 1) 0
          (maskKeep 1 (dropoutRate (fun _ : Fin 1 => (0 : ℝ)))
            ((fun _ _ _ => (5 : ℝ) : Heap 1 1) 0)), 0) :=
  (C10_apply_threshold_inplace 1 (fun _ : Fin 1 => (0 : ℝ))
    (fun _ _ _ => (5 : ℝ) : Heap 1 1) 0 [] (by decide)).1
